import Mathlib

/-!
# TruthGuard detection pipeline — formal model

A shallow embedding, in Lean 4, of the core detection-and-scoring pipeline of
the TruthGuard backend (`backend/app/services/`).  Python functions are
translated to executable Lean definitions: text is `String` / `List Char`,
Python floats are modelled as exact rationals `ℚ`, Python dicts become
structures (a key that may be absent becomes an `Option` field), exceptions
become `Except` values, and the regular expressions used by the text utilities
are embedded through a small backtracking matcher (`mrun`) whose patterns
mirror the source patterns element by element.

External collaborators (HTTP knowledge sources, the policy/rule store) are
modelled as explicit inputs to the orchestrator, matching the structure of the
Python code which receives their results at the corresponding call sites.
-/

namespace TruthGuard

/-! ## Python string primitives -/

/-- Python's `\s` / `str.split()` whitespace (ASCII subset). -/
def isPySpace (c : Char) : Bool :=
  c = ' ' ∨ c = '\t' ∨ c = '\n' ∨ c = '\r' ∨ c = '\x0b' ∨ c = '\x0c'

/-- Python `str.lower()` (ASCII, which covers all texts the pipeline
handles). -/
def pyLower (s : String) : String :=
  (s.data.map Char.toLower).asString

/-- Python `str.strip()`: drop leading and trailing whitespace. -/
def pyStrip (s : String) : String :=
  (((s.data.dropWhile isPySpace).reverse.dropWhile isPySpace).reverse).asString

/-- Substring test: Python's `sub in s` on strings, over `List Char`. -/
def containsSub (s sub : List Char) : Bool :=
  s.tails.any (fun t => sub.isPrefixOf t)

/-- `sub in s` for `String`s (both sides taken verbatim). -/
def strContains (s sub : String) : Bool :=
  containsSub s.data sub.data

/-- Python `str.split()` with no separator: split on runs of whitespace,
dropping empty fields. -/
def pySplitWsAux : List Char → List Char → List String
  | [], acc => if acc.isEmpty then [] else [(acc.reverse).asString]
  | c :: cs, acc =>
    if isPySpace c then
      if acc.isEmpty then pySplitWsAux cs []
      else (acc.reverse).asString :: pySplitWsAux cs []
    else pySplitWsAux cs (c :: acc)

def pySplitWs (s : String) : List String :=
  pySplitWsAux s.data []

/-- Number of leading characters satisfying `p`. -/
def leadCount (p : Char → Bool) : List Char → Nat
  | [] => 0
  | c :: cs => if p c then leadCount p cs + 1 else 0

theorem leadCount_le (p : Char → Bool) : ∀ s : List Char, leadCount p s ≤ s.length
  | [] => Nat.le_refl _
  | c :: cs => by
    simp only [leadCount]
    split
    · exact Nat.succ_le_succ (leadCount_le p cs)
    · exact Nat.zero_le _

theorem exists_of_leadCount_pos {p : Char → Bool} {s : List Char}
    (h : 1 ≤ leadCount p s) : ∃ c ∈ s, p c = true := by
  cases s with
  | nil => simp [leadCount] at h
  | cons c cs =>
    by_cases hp : p c = true
    · exact ⟨c, List.mem_cons_self c cs, hp⟩
    · simp [leadCount, hp] at h

/-! ## A small regex matcher

The text utilities use a handful of `re` patterns.  We embed exactly those
patterns: a pattern is a list of elements, each a literal character, a
quantified character class, or an alternation of literal words (matched
case-insensitively, for the `re.IGNORECASE` month pattern).  `mrun` performs
Python-style left-biased, greedy backtracking and returns the number of
characters consumed by the leftmost-biased match starting at the head of the
input, if any. -/

inductive CClass where
  | digit       -- `\d`
  | digitComma  -- `[\d,]`
  | dotc        -- `\.`
  | commac      -- `,`
  | spacec      -- `\s`
  deriving DecidableEq, Repr

def CClass.test : CClass → Char → Bool
  | .digit, c => c.isDigit
  | .digitComma, c => c.isDigit || c = ','
  | .dotc, c => c = '.'
  | .commac, c => c = ','
  | .spacec, c => isPySpace c

inductive RQuant where
  | opt               -- `?`
  | star              -- `*`
  | plus              -- `+`
  | exact (n : Nat)   -- `{n}`
  | between (m n : Nat) -- `{m,n}`
  deriving DecidableEq, Repr

inductive RElem where
  | lit (c : Char)
  | cls (cl : CClass) (q : RQuant)
  | alt (ws : List (List Char))  -- `(w1|w2|...)`, case-insensitive words
  deriving DecidableEq, Repr

/-- `[hi, hi-1, ..., lo]` (empty when `hi < lo`): the greedy order in which a
quantifier's repetition counts are attempted. -/
def lensBetween (lo hi : Nat) : List Nat :=
  (List.range' lo (hi + 1 - lo)).reverse

theorem mem_lensBetween {k lo hi : Nat} (h : k ∈ lensBetween lo hi) :
    lo ≤ k ∧ k ≤ hi := by
  simp only [lensBetween, List.mem_reverse, List.mem_range'_1] at h
  omega

/-- Minimum repetitions a quantifier demands. -/
def RQuant.minReps : RQuant → Nat
  | .opt => 0
  | .star => 0
  | .plus => 1
  | .exact n => n
  | .between m _ => m

/-- Maximum repetitions a quantifier allows, given the length `maxr` of the
run of matching characters. -/
def RQuant.maxReps : RQuant → Nat → Nat
  | .opt, _ => 1
  | .star, maxr => maxr
  | .plus, maxr => maxr
  | .exact n, _ => n
  | .between _ n, _ => n

/-- Candidate repetition counts for a quantified class, greedy (longest)
first, never exceeding the length `maxr` of the run of matching characters. -/
def quantLens (q : RQuant) (maxr : Nat) : List Nat :=
  lensBetween q.minReps (Nat.min (q.maxReps maxr) maxr)

theorem mem_quantLens {k : Nat} {q : RQuant} {maxr : Nat}
    (h : k ∈ quantLens q maxr) : q.minReps ≤ k ∧ k ≤ maxr := by
  have := mem_lensBetween h
  exact ⟨this.1, le_trans this.2 (Nat.min_le_right _ _)⟩

/-- Case-insensitive word-prefix test (ASCII lowering, as `re.IGNORECASE`
behaves on the month names). -/
def wordAtCI : List Char → List Char → Bool
  | [], _ => true
  | _ :: _, [] => false
  | w :: ws, c :: cs => (w.toLower = c.toLower) && wordAtCI ws cs

mutual

/-- Length consumed by the leftmost-biased greedy match of the pattern at the
head of `s`, or `none`. -/
def mrun : List RElem → List Char → Option Nat
  | [], _ => some 0
  | .lit _ :: _, [] => none
  | .lit c :: rest, x :: xs =>
    if x = c then (mrun rest xs).map (· + 1) else none
  | .cls cl q :: rest, s => mtryLens rest s (quantLens q (leadCount cl.test s))
  | .alt ws :: rest, s => mtryWords rest s ws
termination_by es _ => (es.length, 2, 0)

/-- Try repetition counts in order, backtracking into the rest of the
pattern. -/
def mtryLens : List RElem → List Char → List Nat → Option Nat
  | _, _, [] => none
  | rest, s, k :: ks =>
    match mrun rest (s.drop k) with
    | some n => some (k + n)
    | none => mtryLens rest s ks
termination_by rest _ ks => (rest.length + 1, 1, ks.length)

/-- Try alternation branches in order. -/
def mtryWords : List RElem → List Char → List (List Char) → Option Nat
  | _, _, [] => none
  | rest, s, w :: ws =>
    if wordAtCI w s then
      match mrun rest (s.drop w.length) with
      | some n => some (w.length + n)
      | none => mtryWords rest s ws
    else mtryWords rest s ws
termination_by rest _ ws => (rest.length + 1, 1, ws.length)

end

/-- `re.finditer`: scan positions left to right; after a match resume at its
end.  `fuel` bounds the loop (callers pass `s.length + 1`, enough to visit
every position). -/
def scanFrom (es : List RElem) (s : List Char) : Nat → Nat → List (Nat × Nat)
  | _, 0 => []
  | i, fuel + 1 =>
    if i ≤ s.length then
      match mrun es (s.drop i) with
      | some n => (i, n) :: scanFrom es s (i + Nat.max n 1) fuel
      | none => scanFrom es s (i + 1) fuel
    else []

/-- All matches of a pattern in `s`, as (position, length) pairs. -/
def findIter (es : List RElem) (s : List Char) : List (Nat × Nat) :=
  scanFrom es s 0 (s.length + 1)

theorem scanFrom_exists {es : List RElem} {s : List Char} :
    ∀ {fuel i}, scanFrom es s i fuel ≠ [] →
    ∃ j n, mrun es (s.drop j) = some n := by
  intro fuel
  induction fuel with
  | zero => intro i h; simp [scanFrom] at h
  | succ fuel ih =>
    intro i h
    simp only [scanFrom] at h
    split at h
    · cases hm : mrun es (s.drop i) with
      | some n => exact ⟨i, n, hm⟩
      | none => rw [hm] at h; exact ih h
    · exact absurd rfl h

theorem scanFrom_ne_nil {es : List RElem} {s : List Char} {j n : Nat}
    (hj : j ≤ s.length) (hm : mrun es (s.drop j) = some n) :
    ∀ {fuel i}, i ≤ j → j < i + fuel → scanFrom es s i fuel ≠ [] := by
  intro fuel
  induction fuel with
  | zero => intro i _ hlt; omega
  | succ fuel ih =>
    intro i hij hlt
    simp only [scanFrom]
    have hi : i ≤ s.length := le_trans hij hj
    rw [if_pos hi]
    cases hmi : mrun es (s.drop i) with
    | some n' => simp
    | none =>
      have hne : i ≠ j := by
        intro he; rw [he, hm] at hmi; exact Option.noConfusion hmi
      exact ih (by omega) (by omega)

theorem findIter_ne_nil {es : List RElem} {s : List Char} {j n : Nat}
    (hj : j ≤ s.length) (hm : mrun es (s.drop j) = some n) :
    findIter es s ≠ [] :=
  scanFrom_ne_nil hj hm (Nat.zero_le j) (by omega)

theorem findIter_exists {es : List RElem} {s : List Char}
    (h : findIter es s ≠ []) : ∃ j n, mrun es (s.drop j) = some n :=
  scanFrom_exists h

theorem mtryLens_some {rest : List RElem} {s : List Char} :
    ∀ {ks : List Nat} {n : Nat}, mtryLens rest s ks = some n →
    ∃ k ∈ ks, ∃ m, mrun rest (s.drop k) = some m := by
  intro ks
  induction ks with
  | nil => intro n h; simp [mtryLens] at h
  | cons k ks ih =>
    intro n h
    rw [mtryLens] at h
    cases hm : mrun rest (s.drop k) with
    | some m => exact ⟨k, List.mem_cons_self k ks, m, hm⟩
    | none =>
      rw [hm] at h
      obtain ⟨k', hk', m, hm'⟩ := ih h
      exact ⟨k', List.mem_cons_of_mem _ hk', m, hm'⟩

theorem mtryWords_some {rest : List RElem} {s : List Char} :
    ∀ {ws : List (List Char)} {n : Nat}, mtryWords rest s ws = some n →
    ∃ w ∈ ws, ∃ m, mrun rest (s.drop w.length) = some m := by
  intro ws
  induction ws with
  | nil => intro n h; simp [mtryWords] at h
  | cons w ws ih =>
    intro n h
    rw [mtryWords] at h
    split at h
    · cases hm : mrun rest (s.drop w.length) with
      | some m => exact ⟨w, List.mem_cons_self w ws, m, hm⟩
      | none =>
        rw [hm] at h
        obtain ⟨w', hw', m, hm'⟩ := ih h
        exact ⟨w', List.mem_cons_of_mem _ hw', m, hm'⟩
    · obtain ⟨w', hw', m, hm'⟩ := ih h
      exact ⟨w', List.mem_cons_of_mem _ hw', m, hm'⟩

/-- A pattern that demands at least one `\d` character on every successful
match. -/
def mandDigit : List RElem → Bool
  | [] => false
  | .cls .digit q :: rest => decide (1 ≤ q.minReps) || mandDigit rest
  | _ :: rest => mandDigit rest

/-- Any successful match of a pattern with a mandatory digit element implies
the input contains a digit character. -/
theorem mrun_digit : ∀ {es : List RElem} {s : List Char} {n : Nat},
    mandDigit es = true → mrun es s = some n → ∃ c ∈ s, c.isDigit = true := by
  intro es
  induction es with
  | nil => intro s n hmand _; simp [mandDigit] at hmand
  | cons e rest ih =>
    intro s n hmand hrun
    cases e with
    | lit c =>
      cases s with
      | nil => rw [mrun] at hrun; exact Option.noConfusion hrun
      | cons x xs =>
        rw [mrun] at hrun
        split at hrun
        · cases hm : mrun rest xs with
          | some m =>
            have hmand' : mandDigit rest = true := hmand
            obtain ⟨c', hc', hd⟩ := ih hmand' hm
            exact ⟨c', List.mem_cons_of_mem _ hc', hd⟩
          | none => rw [hm] at hrun; exact Option.noConfusion hrun
        · exact Option.noConfusion hrun
    | cls cl q =>
      rw [mrun] at hrun
      obtain ⟨k, hk, m, hm⟩ := mtryLens_some hrun
      have hmem := mem_quantLens hk
      cases cl with
      | digit =>
        have hmand' : (decide (1 ≤ q.minReps) || mandDigit rest) = true := hmand
        rcases Bool.or_eq_true_iff.mp hmand' with hmin | hrest
        · have h1 : 1 ≤ leadCount CClass.digit.test s :=
            le_trans (le_trans (of_decide_eq_true hmin) hmem.1) hmem.2
          obtain ⟨c, hc, hd⟩ := exists_of_leadCount_pos h1
          exact ⟨c, hc, hd⟩
        · obtain ⟨c, hc, hd⟩ := ih hrest hm
          exact ⟨c, List.drop_subset _ _ hc, hd⟩
      | digitComma =>
        obtain ⟨c, hc, hd⟩ := ih hmand hm
        exact ⟨c, List.drop_subset _ _ hc, hd⟩
      | dotc =>
        obtain ⟨c, hc, hd⟩ := ih hmand hm
        exact ⟨c, List.drop_subset _ _ hc, hd⟩
      | commac =>
        obtain ⟨c, hc, hd⟩ := ih hmand hm
        exact ⟨c, List.drop_subset _ _ hc, hd⟩
      | spacec =>
        obtain ⟨c, hc, hd⟩ := ih hmand hm
        exact ⟨c, List.drop_subset _ _ hc, hd⟩
    | alt ws =>
      rw [mrun] at hrun
      obtain ⟨w, _, m, hm⟩ := mtryWords_some hrun
      obtain ⟨c, hc, hd⟩ := ih hmand hm
      exact ⟨c, List.drop_subset _ _ hc, hd⟩

/-! ## `text_preprocessing.py` — number and date extraction

Embeddings of `extract_numbers` and `extract_dates`.  Each Python regex is
encoded element by element as a `List RElem`; records mirror the dicts the
Python functions build (`value`/`date`, `type`/`format`, `position`,
`context`). -/

/-- `r'\$[\d,]+\.?\d*'` -/
def currencyPat : List RElem :=
  [.lit '$', .cls .digitComma .plus, .cls .dotc .opt, .cls .digit .star]

/-- `r'[\d,]+\.?\d*\s*%'` -/
def percentagePat : List RElem :=
  [.cls .digitComma .plus, .cls .dotc .opt, .cls .digit .star,
   .cls .spacec .star, .lit '%']

/-- `r'[\d,]+\.?\d+'` -/
def decimalPat : List RElem :=
  [.cls .digitComma .plus, .cls .dotc .opt, .cls .digit .plus]

/-- `r'\d+'` -/
def integerPat : List RElem := [.cls .digit .plus]

structure NumberRec where
  value : String
  type : String
  position : Nat
  context : String
  deriving DecidableEq, Repr

/-- `text[max(0, start-20):end+20]` (`Nat` subtraction models the `max`). -/
def sliceContext (s : List Char) (start stop : Nat) : String :=
  ((s.drop (start - 20)).take (stop + 20 - (start - 20))).asString

def matchRecords (pat : List RElem) (tname : String) (s : List Char) :
    List NumberRec :=
  (findIter pat s).map (fun pr =>
    { value := ((s.drop pr.1).take pr.2).asString
      type := tname
      position := pr.1
      context := sliceContext s pr.1 (pr.1 + pr.2) })

/-- `extract_numbers`: the four number regex families, in source order. -/
def extract_numbers (text : String) : List NumberRec :=
  matchRecords currencyPat "currency" text.data ++
  matchRecords percentagePat "percentage" text.data ++
  matchRecords decimalPat "decimal" text.data ++
  matchRecords integerPat "integer" text.data

def monthWords : List (List Char) :=
  ["January".data, "February".data, "March".data, "April".data, "May".data,
   "June".data, "July".data, "August".data, "September".data, "October".data,
   "November".data, "December".data]

/-- `r'\d{4}-\d{2}-\d{2}'` -/
def isoDatePat : List RElem :=
  [.cls .digit (.exact 4), .lit '-', .cls .digit (.exact 2), .lit '-',
   .cls .digit (.exact 2)]

/-- `r'\d{1,2}/\d{1,2}/\d{4}'` -/
def usSlashDatePat : List RElem :=
  [.cls .digit (.between 1 2), .lit '/', .cls .digit (.between 1 2), .lit '/',
   .cls .digit (.exact 4)]

/-- `r'\d{1,2}-\d{1,2}-\d{4}'` -/
def usDashDatePat : List RElem :=
  [.cls .digit (.between 1 2), .lit '-', .cls .digit (.between 1 2), .lit '-',
   .cls .digit (.exact 4)]

/-- `r'(January|...|December)\s+\d{1,2},?\s+\d{4}'`, with `re.IGNORECASE`. -/
def longDatePat : List RElem :=
  [.alt monthWords, .cls .spacec .plus, .cls .digit (.between 1 2),
   .cls .commac .opt, .cls .spacec .plus, .cls .digit (.exact 4)]

structure DateRec where
  date : String
  format : String
  position : Nat
  context : String
  deriving DecidableEq, Repr

def dateRecords (pat : List RElem) (fmt : String) (s : List Char) :
    List DateRec :=
  (findIter pat s).map (fun pr =>
    { date := ((s.drop pr.1).take pr.2).asString
      format := fmt
      position := pr.1
      context := sliceContext s pr.1 (pr.1 + pr.2) })

/-- `extract_dates`: the four date regex families, in source order. -/
def extract_dates (text : String) : List DateRec :=
  dateRecords isoDatePat "iso" text.data ++
  dateRecords usSlashDatePat "us" text.data ++
  dateRecords usDashDatePat "us-dash" text.data ++
  dateRecords longDatePat "long" text.data

/-! ## `claim_extraction.py` — claim-type classification -/

/-- `determine_claim_type`: numbers take priority, then dates, then
regulatory keywords, else factual. -/
def determine_claim_type (text : String) (numbers : List NumberRec)
    (dates : List DateRec) : String :=
  if ¬ numbers.isEmpty then
    if numbers.any (fun n => n.type == "currency") then "financial"
    else if numbers.any (fun n => n.type == "percentage") then "statistical"
    else "numerical"
  else if ¬ dates.isEmpty then "temporal"
  else if ["regulation", "law", "act", "rule"].any
      (fun w => strContains (pyLower text) w) then "regulatory"
  else "factual"

/-- A digit in the text makes the `\d+` integer family match, so
`extract_numbers` is nonempty. -/
theorem extract_numbers_ne_nil_of_digit {text : String} {c : Char}
    (hc : c ∈ text.data) (hd : c.isDigit = true) :
    extract_numbers text ≠ [] := by
  obtain ⟨i, hi, hget⟩ := List.mem_iff_getElem.mp hc
  have hdrop : text.data.drop i = c :: text.data.drop (i + 1) := by
    rw [← hget]
    exact (List.getElem_cons_drop text.data i hi).symm
  have hlead : 1 ≤ leadCount CClass.digit.test (text.data.drop i) := by
    rw [hdrop]
    simp only [leadCount, CClass.test, hd, if_true]
    omega
  have hmr : ∃ m, mrun integerPat (text.data.drop i) = some m := by
    rw [integerPat, mrun]
    have hne : quantLens RQuant.plus
        (leadCount CClass.digit.test (text.data.drop i)) ≠ [] := by
      have h1 : (1 : Nat) ∈ quantLens RQuant.plus
          (leadCount CClass.digit.test (text.data.drop i)) := by
        simp only [quantLens, lensBetween, RQuant.minReps, RQuant.maxReps,
          Nat.min_self, List.mem_reverse, List.mem_range'_1]
        omega
      exact List.ne_nil_of_mem h1
    obtain ⟨k, ks, hks⟩ := List.exists_cons_of_ne_nil hne
    rw [hks, mtryLens, mrun]
    exact ⟨k + 0, rfl⟩
  obtain ⟨m, hm⟩ := hmr
  have hfind : findIter integerPat text.data ≠ [] :=
    findIter_ne_nil (le_trans (Nat.le_of_lt hi) (Nat.le_refl _)) hm
  intro habs
  rw [extract_numbers] at habs
  simp only [List.append_eq_nil] at habs
  exact hfind (by simpa [matchRecords] using habs.2)

/-- Every date-regex match contains a digit, so nonempty `extract_dates`
forces nonempty `extract_numbers`. -/
theorem extract_numbers_ne_nil_of_dates {text : String}
    (h : extract_dates text ≠ []) : extract_numbers text ≠ [] := by
  have hdig : ∃ c ∈ text.data, c.isDigit = true := by
    rw [extract_dates] at h
    have hone : findIter isoDatePat text.data ≠ [] ∨
        findIter usSlashDatePat text.data ≠ [] ∨
        findIter usDashDatePat text.data ≠ [] ∨
        findIter longDatePat text.data ≠ [] := by
      by_contra hall
      push_neg at hall
      apply h
      simp [dateRecords, hall.1, hall.2.1, hall.2.2.1, hall.2.2.2]
    rcases hone with hf | hf | hf | hf <;>
      obtain ⟨j, n, hm⟩ := findIter_exists hf <;>
      [ (obtain ⟨c, hc, hd⟩ := mrun_digit (by decide : mandDigit isoDatePat = true) hm);
        (obtain ⟨c, hc, hd⟩ := mrun_digit (by decide : mandDigit usSlashDatePat = true) hm);
        (obtain ⟨c, hc, hd⟩ := mrun_digit (by decide : mandDigit usDashDatePat = true) hm);
        (obtain ⟨c, hc, hd⟩ := mrun_digit (by decide : mandDigit longDatePat = true) hm)] <;>
      exact ⟨c, List.drop_subset _ _ hc, hd⟩
  obtain ⟨c, hc, hd⟩ := hdig
  exact extract_numbers_ne_nil_of_digit hc hd

/-! ## `policy_matching.py` -/

/-- Stop words of `extract_key_terms`. -/
def policyStopWords : List String :=
  ["the", "a", "an", "is", "are", "was", "were", "be", "been", "to", "of",
   "and", "or", "but", "in", "on", "at", "for", "with", "this", "that",
   "these", "those"]

/-- `extract_key_terms`: lowercase, split on whitespace, drop stop words and
words of length ≤ 3. -/
def extract_key_terms (text : String) : List String :=
  (pySplitWs (pyLower text)).filter
    (fun w => ¬ policyStopWords.contains w ∧ w.length > 3)

/-- The opposite-keyword table of `find_contradictions`. -/
def opposite_pairs : List (String × String) :=
  [("always", "never"), ("guaranteed", "cannot guarantee"),
   ("immediate", "within"), ("free", "charge")]

/-- `find_contradictions`: bidirectional opposite-word check between the two
texts (the key-term lists are received but unused, exactly as in the
source). -/
def find_contradictions (policy_terms response_terms : List String)
    (policy response : String) : List String :=
  let _ := policy_terms
  let _ := response_terms
  opposite_pairs.filterMap (fun pr =>
    if strContains (pyLower policy) pr.1 ∧ strContains (pyLower response) pr.2 then
      some ("Policy uses '" ++ pr.1 ++ "' but response uses '" ++ pr.2 ++ "'")
    else if strContains (pyLower policy) pr.2 ∧
        strContains (pyLower response) pr.1 then
      some ("Policy uses '" ++ pr.2 ++ "' but response uses '" ++ pr.1 ++ "'")
    else none)

/-- One match of `r'(\d+)\s*(day|hour|minute|week)'` at the head of `s`:
greedy digits, optional whitespace, then the first alternation word; returns
(consumed length, digit group, unit group).  Shrinking the greedy runs can
never rescue a failed unit match (the unit words start with letters), so the
greedy scan is exactly the backtracking behaviour of `re`. -/
def timeMatchHere (s : List Char) : Option (Nat × String × String) :=
  let d := leadCount Char.isDigit s
  if d = 0 then none
  else
    let s1 := s.drop d
    let sp := leadCount isPySpace s1
    let s2 := s1.drop sp
    match ["day".data, "hour".data, "minute".data, "week".data].find?
        (fun w => w.isPrefixOf s2) with
    | some w => some (d + sp + w.length, (s.take d).asString, w.asString)
    | none => none

/-- `re.findall(r'(\d+)\s*(day|hour|minute|week)', text)`: scan left to
right, resuming after each match (`fuel` bounds the loop; callers pass the
text length). -/
def timeScanAux : List Char → Nat → List (String × String)
  | _, 0 => []
  | s, fuel + 1 =>
    match timeMatchHere s with
    | some pr => (pr.2.1, pr.2.2) :: timeScanAux (s.drop (Nat.max pr.1 1)) fuel
    | none =>
      match s with
      | [] => []
      | _ :: rest => timeScanAux rest fuel

def timeFindall (text : String) : List (String × String) :=
  timeScanAux text.data text.data.length

/-- Python `int(...)` on a digit string. -/
def natOfDigits (s : String) : Nat :=
  s.data.foldl (fun a c => a * 10 + (c.toNat - '0'.toNat)) 0

/-- `extract_days`: normalize (value, unit) pairs to day counts (hours are
divided by 24, weeks multiplied by 7, minutes dropped). -/
def extract_days (time_tuples : List (String × String)) : List ℚ :=
  time_tuples.filterMap (fun pr =>
    let value : ℚ := natOfDigits pr.1
    let unit := pyLower pr.2
    if unit = "day" ∨ unit = "days" then some value
    else if unit = "hour" ∨ unit = "hours" then some (value / 24)
    else if unit = "week" ∨ unit = "weeks" then some (value * 7)
    else none)

/-- The `deviation` payload of a failed `check_policy_match`.  The Python
code renders these as f-strings; we keep them structured (the string
rendering of the embedded numbers is presentation only). -/
inductive Deviation where
  /-- `"Response contradicts policy '<name>': <first contradiction>"` -/
  | contradicts (policy_name : String) (msg : String)
  /-- `"Response promises <r> days but policy allows <p> days"` -/
  | timePromise (response_days policy_days : ℚ)
  deriving DecidableEq, Repr

structure PolicyMatchResult where
  matched : Bool
  deviation : Option Deviation
  confidence : ℚ
  deriving DecidableEq, Repr

/-- `check_policy_match`: lexical contradictions first; then, for refund
categories, the time-promise comparison on the first extracted day counts;
else compliant by default. -/
def check_policy_match (response policy_content policy_name category :
    String) : PolicyMatchResult :=
  let policy_keywords := extract_key_terms policy_content
  let response_keywords := extract_key_terms response
  let contradictions :=
    find_contradictions policy_keywords response_keywords policy_content
      response
  match contradictions with
  | c :: _ => ⟨false, some (.contradicts policy_name c), 4/5⟩
  | [] =>
    if strContains (pyLower category) "refund" then
      let policy_times := timeFindall policy_content
      let response_times := timeFindall response
      if policy_times ≠ [] ∧ response_times ≠ [] then
        let policy_days := extract_days policy_times
        let response_days := extract_days response_times
        match response_days, policy_days with
        | rd :: _, pd :: _ =>
          if rd < pd then ⟨false, some (.timePromise rd pd), 9/10⟩
          else ⟨true, none, 7/10⟩
        | _, _ => ⟨true, none, 7/10⟩
      else ⟨true, none, 7/10⟩
    else ⟨true, none, 7/10⟩

/-! ## Claims C9 and C4 -/

/-- C9.  Claim-type classification never produces `temporal`: every string
matched by one of the date regexes contains a digit run that the integer
number regex also matches, so nonempty extracted dates force nonempty
extracted numbers, and the number branch of `determine_claim_type` takes
priority over the date branch. -/
theorem determine_claim_type_never_temporal (text : String) :
    determine_claim_type text (extract_numbers text) (extract_dates text) ≠
      "temporal" := by
  rw [determine_claim_type]
  by_cases hn : extract_numbers text = []
  · have hd : extract_dates text = [] := by
      by_contra hdd
      exact extract_numbers_ne_nil_of_dates hdd hn
    rw [hn, hd]
    simp only [List.isEmpty_nil, not_true, if_false]
    split
    · decide
    · decide
  · have hn' : ¬ (extract_numbers text).isEmpty := by
      simpa [List.isEmpty_iff] using hn
    rw [if_pos hn']
    split
    · decide
    · split
      · decide
      · decide

/-- C4 counterexample.  For the exact pair in the claim — policy content
"refunds within 7-10 business days", response "refund within 24 hours" — no
policy violation is produced: the word "business" sits between "10" and
"days", so the time regex extracts nothing from the policy text and the
match defaults to compliant. -/
theorem check_policy_match_business_days_no_violation :
    check_policy_match "refund within 24 hours"
      "refunds within 7-10 business days" "Refund Policy" "refund" =
      ⟨true, none, 7/10⟩ := by
  rfl

/-- C4 amended.  For refund-type policies with no lexical contradiction,
when both texts yield time expressions whose unit directly follows the
number, normalized to days (hours divided by 24, weeks times 7), a policy
violation (`matched = false`, deviation reporting the day mismatch,
confidence 0.9) is flagged whenever the response's first day count is
strictly smaller than the policy's first day count. -/
theorem check_policy_match_time_promise
    (response policy_content policy_name category : String)
    (rd pd : ℚ) (rtl ptl : List ℚ)
    (hnc : find_contradictions (extract_key_terms policy_content)
      (extract_key_terms response) policy_content response = [])
    (hcat : strContains (pyLower category) "refund" = true)
    (hrt : extract_days (timeFindall response) = rd :: rtl)
    (hpt : extract_days (timeFindall policy_content) = pd :: ptl)
    (hlt : rd < pd) :
    check_policy_match response policy_content policy_name category =
      ⟨false, some (.timePromise rd pd), 9/10⟩ := by
  have hrne : timeFindall response ≠ [] := by
    intro h
    rw [h] at hrt
    simp [extract_days] at hrt
  have hpne : timeFindall policy_content ≠ [] := by
    intro h
    rw [h] at hpt
    simp [extract_days] at hpt
  rw [check_policy_match, hnc]
  simp only [hcat, if_true]
  rw [if_pos ⟨hpne, hrne⟩, hrt, hpt]
  simp [hlt]

/-- C4 amended, witness: policy "refunds within 7 days" vs response
"refund within 24 hours" — 24 hours normalizes to 1 day < 7 days, so the
violation fires. -/
theorem check_policy_match_time_promise_witness :
    check_policy_match "refund within 24 hours" "refunds within 7 days"
      "Refund Policy" "refund" = ⟨false, some (.timePromise 1 7), 9/10⟩ :=
  check_policy_match_time_promise "refund within 24 hours"
    "refunds within 7 days" "Refund Policy" "refund" 1 7 [] []
    (by decide) (by decide)
    (by
      have h : timeFindall "refund within 24 hours" = [("24", "hour")] := by
        decide
      have hl : pyLower "hour" = "hour" := by decide
      have hn : natOfDigits "24" = 24 := by decide
      rw [h]
      simp only [extract_days, List.filterMap_cons, List.filterMap_nil, hl, hn]
      norm_num
      rw [if_neg (by decide : ¬("hour" = "day" ∨ "hour" = "days"))])
    (by
      have h : timeFindall "refunds within 7 days" = [("7", "day")] := by
        decide
      have hl : pyLower "day" = "day" := by decide
      have hn : natOfDigits "7" = 7 := by decide
      rw [h]
      simp only [extract_days, List.filterMap_cons, List.filterMap_nil, hl, hn]
      norm_num)
    (by norm_num)

/-! ## `real_time_verification.py` — multi-source aggregation

`verify_claim_realtime` queries Wikipedia, then DuckDuckGo, then NewsAPI.
The three source results are inputs here (they are produced by HTTP calls);
the second component of the returned pair records which sources were
consulted. -/

structure RTRes where
  status : String
  confidence : ℚ
  source : Option String
  details : String
  url : Option String := none
  deriving DecidableEq, Repr

/-- Python `max(results, key=lambda x: x['confidence'])`: left fold keeping
the first maximum. -/
def pyMaxByConf (b : RTRes) : List RTRes → RTRes
  | [] => b
  | r :: rest => pyMaxByConf (if r.confidence > b.confidence then r else b) rest

theorem pyMaxByConf_mem : ∀ (rest : List RTRes) (b : RTRes),
    pyMaxByConf b rest ∈ b :: rest := by
  intro rest
  induction rest with
  | nil => intro b; simp [pyMaxByConf]
  | cons r rest ih =>
    intro b
    rw [pyMaxByConf]
    rcases List.mem_cons.mp (ih (if r.confidence > b.confidence then r else b))
      with h | h
    · rw [h]
      split
      · exact List.mem_cons_of_mem _ (List.mem_cons_self _ _)
      · exact List.mem_cons_self _ _
    · exact List.mem_cons_of_mem _ (List.mem_cons_of_mem _ h)

theorem pyMaxByConf_ge_base : ∀ (rest : List RTRes) (b : RTRes),
    b.confidence ≤ (pyMaxByConf b rest).confidence := by
  intro rest
  induction rest with
  | nil => intro b; exact le_refl _
  | cons r rest ih =>
    intro b
    rw [pyMaxByConf]
    by_cases h : r.confidence > b.confidence
    · rw [if_pos h]
      exact le_trans (le_of_lt h) (ih r)
    · rw [if_neg h]
      exact ih b

theorem pyMaxByConf_ge : ∀ (rest : List RTRes) (b : RTRes),
    ∀ r ∈ b :: rest, r.confidence ≤ (pyMaxByConf b rest).confidence := by
  intro rest
  induction rest with
  | nil =>
    intro b r hr
    rw [List.mem_singleton] at hr
    subst hr
    exact le_refl _
  | cons x rest ih =>
    intro b r hr
    rw [pyMaxByConf]
    rcases List.mem_cons.mp hr with heq | hr
    · subst heq
      by_cases h : x.confidence > r.confidence
      · rw [if_pos h]
        exact le_trans (le_of_lt h) (pyMaxByConf_ge_base rest x)
      · rw [if_neg h]
        exact pyMaxByConf_ge_base rest r
    · rcases List.mem_cons.mp hr with rfl | hr
      · by_cases h : r.confidence > b.confidence
        · rw [if_pos h]
          exact pyMaxByConf_ge_base rest r
        · rw [if_neg h]
          exact le_trans (le_of_not_lt h) (pyMaxByConf_ge_base rest b)
      · exact ih _ r (List.mem_cons_of_mem _ hr)

/-- The +0.1 confidence boost (capped at 0.95) applied when several sources
verified, together with the appended details note. -/
def boostRes (best : RTRes) (nverified : Nat) : RTRes :=
  { best with
    confidence := min (best.confidence + 1/10) (19/20)
    details := best.details ++ " (Also verified by " ++
      toString (nverified - 1) ++ " other source(s))" }

def fallbackRes : RTRes :=
  ⟨"unverified", 3/10, none, "Could not verify against any available sources",
    none⟩

/-- The aggregation step of `verify_claim_realtime` (lines 807-834): best
verified result, boosted when several verified; else best unverified
result; else a fallback. -/
def aggregate_results (results : List RTRes) : RTRes :=
  match results.filter (fun r => r.status == "verified") with
  | v0 :: vrest =>
    let best := pyMaxByConf v0 vrest
    if (v0 :: vrest).length > 1 then boostRes best (v0 :: vrest).length
    else best
  | [] =>
    match results.filter (fun r => r.status == "unverified") with
    | u0 :: urest => pyMaxByConf u0 urest
    | [] => fallbackRes

def claimTooShortRes : RTRes := ⟨"unverified", 0, none, "Claim too short", none⟩

/-- `verify_claim_realtime`: short-claim guard, Wikipedia-contradiction
early return, per-source early returns when `use_all_sources` is off, then
aggregation.  The second component lists the sources consulted. -/
def verify_claim_realtime (claim : String) (use_all_sources : Bool)
    (wiki ddg news : RTRes) : RTRes × List String :=
  if claim = "" ∨ (pyStrip claim).length < 3 then (claimTooShortRes, [])
  else if wiki.status = "false" then (wiki, ["wikipedia"])
  else if wiki.status = "verified" ∧ ¬ use_all_sources then
    (wiki, ["wikipedia"])
  else if ddg.status = "verified" ∧ ¬ use_all_sources then
    (ddg, ["wikipedia", "duckduckgo"])
  else if news.status = "verified" ∧ ¬ use_all_sources then
    (news, ["wikipedia", "duckduckgo", "newsapi"])
  else
    (aggregate_results [wiki, ddg, news], ["wikipedia", "duckduckgo", "newsapi"])

/-! ## `fact_verification.py` — process-wide fact cache -/

/-- The `VerificationResult` objects stored in `fact_cache`. -/
structure VerificationRes where
  status : String
  confidence : ℚ
  source : Option String
  details : Option String
  deriving DecidableEq, Repr

/-- The result dict of `verify_claim` (the cache-hit dict carries no `url`
key, modelled as `url := none`). -/
structure FactResult where
  status : String
  confidence : ℚ
  source : Option String
  details : Option String
  url : Option String := none
  deriving DecidableEq, Repr

/-- `verify_via_database` always returns `None` (the function body is a
stub). -/
def verify_via_database (_claim : String) : Option FactResult := none

/-- `claim.lower().strip()`, the only component of the cache key. -/
def fact_cache_key (claim : String) : String := pyStrip (pyLower claim)

/-- `verify_claim` with the module-level `fact_cache` made explicit (an
association list; insertion conses, lookup takes the newest entry) and the
real-time verifier as an oracle argument. -/
def verify_claim (claim claim_type : String) (use_realtime : Bool)
    (query_context : Option String)
    (fact_cache : List (String × VerificationRes))
    (realtime : String → Option String → FactResult) :
    FactResult × List (String × VerificationRes) :=
  let _ := claim_type
  if claim = "" then
    (⟨"unverified", 0, none, some "Empty claim", none⟩, fact_cache)
  else
    let cache_key := fact_cache_key claim
    match fact_cache.lookup cache_key with
    | some cached =>
      (⟨cached.status, cached.confidence, cached.source, cached.details,
        none⟩, fact_cache)
    | none =>
      let defaultPair :=
        let r : FactResult := ⟨"unverified", 1/2, none,
          some "Could not verify claim against available sources", none⟩
        (r, (cache_key, ⟨r.status, r.confidence, r.source, r.details⟩) ::
          fact_cache)
      if use_realtime then
        let r := realtime claim query_context
        (r, (cache_key, ⟨r.status, r.confidence, r.source, r.details⟩) ::
          fact_cache)
      else
        match verify_via_database claim with
        | some db =>
          if db.status = "verified" then
            (db, (cache_key, ⟨db.status, db.confidence, db.source,
              db.details⟩) :: fact_cache)
          else defaultPair
        | none => defaultPair

/-! ## Claims C6 and C10 -/

/-- C6.  With `use_all_sources = true` (the pipeline default): a Wikipedia
`false` is returned immediately without consulting the other sources; else
if at least one source verified, the highest-confidence verified result is
returned, boosted by +0.1 (capped 0.95) exactly when more than one source
verified; else the highest-confidence unverified result is returned. -/
theorem verify_claim_realtime_aggregation
    (claim : String) (wiki ddg news : RTRes)
    (hlen : 3 ≤ (pyStrip claim).length)
    (hw : wiki.status = "false" ∨ wiki.status = "verified" ∨
      wiki.status = "unverified")
    (hd : ddg.status = "verified" ∨ ddg.status = "unverified")
    (hn : news.status = "verified" ∨ news.status = "unverified") :
    (wiki.status = "false" →
      verify_claim_realtime claim true wiki ddg news = (wiki, ["wikipedia"])) ∧
    (wiki.status ≠ "false" →
      (∃ r ∈ [wiki, ddg, news], r.status = "verified") →
      ∃ b ∈ [wiki, ddg, news], b.status = "verified" ∧
        (∀ r ∈ [wiki, ddg, news], r.status = "verified" →
          r.confidence ≤ b.confidence) ∧
        verify_claim_realtime claim true wiki ddg news =
          (if 1 < ([wiki, ddg, news].filter
              (fun r => r.status == "verified")).length
           then boostRes b ([wiki, ddg, news].filter
              (fun r => r.status == "verified")).length
           else b,
           ["wikipedia", "duckduckgo", "newsapi"])) ∧
    (wiki.status ≠ "false" →
      (∀ r ∈ [wiki, ddg, news], r.status ≠ "verified") →
      ∃ b ∈ [wiki, ddg, news], b.status = "unverified" ∧
        (∀ r ∈ [wiki, ddg, news], r.confidence ≤ b.confidence) ∧
        verify_claim_realtime claim true wiki ddg news =
          (b, ["wikipedia", "duckduckgo", "newsapi"])) := by
  have hguard : ¬ (claim = "" ∨ (pyStrip claim).length < 3) := by
    rintro (rfl | hshort)
    · simp [pyStrip] at hlen
    · omega
  have hskip : ∀ st : String,
      ¬ (st = "verified" ∧ ¬ ((true : Bool) = true)) :=
    fun _ h => h.2 rfl
  refine ⟨fun hfalse => ?_, fun hnf hver => ?_, fun hnf hunv => ?_⟩
  · rw [verify_claim_realtime, if_neg hguard, if_pos hfalse]
  · rw [verify_claim_realtime, if_neg hguard, if_neg hnf,
      if_neg (hskip wiki.status), if_neg (hskip ddg.status),
      if_neg (hskip news.status)]
    have hfne : [wiki, ddg, news].filter (fun r => r.status == "verified")
        ≠ [] := by
      obtain ⟨r, hr, hrs⟩ := hver
      exact List.ne_nil_of_mem (List.mem_filter.mpr ⟨hr, by simp [hrs]⟩)
    obtain ⟨v0, vrest, hvs⟩ := List.exists_cons_of_ne_nil hfne
    have hmem : pyMaxByConf v0 vrest ∈
        [wiki, ddg, news].filter (fun r => r.status == "verified") := by
      rw [hvs]; exact pyMaxByConf_mem vrest v0
    refine ⟨pyMaxByConf v0 vrest, List.mem_of_mem_filter hmem, ?_, ?_, ?_⟩
    · have := List.of_mem_filter hmem
      simpa using this
    · intro r hr hrs
      have hrf : r ∈ [wiki, ddg, news].filter
          (fun r => r.status == "verified") :=
        List.mem_filter.mpr ⟨hr, by simp [hrs]⟩
      rw [hvs] at hrf
      exact pyMaxByConf_ge vrest v0 r hrf
    · rw [aggregate_results, hvs]
  · rw [verify_claim_realtime, if_neg hguard, if_neg hnf,
      if_neg (hskip wiki.status), if_neg (hskip ddg.status),
      if_neg (hskip news.status)]
    have hwu : wiki.status = "unverified" := by
      rcases hw with h | h | h
      · exact absurd h hnf
      · exact absurd h (hunv wiki (by simp))
      · exact h
    have hdu : ddg.status = "unverified" := by
      rcases hd with h | h
      · exact absurd h (hunv ddg (by simp))
      · exact h
    have hnu : news.status = "unverified" := by
      rcases hn with h | h
      · exact absurd h (hunv news (by simp))
      · exact h
    have hfv : [wiki, ddg, news].filter (fun r => r.status == "verified")
        = [] := by
      rw [List.filter_eq_nil_iff]
      intro r hr
      simp only [beq_iff_eq]
      exact hunv r hr
    have hfu : [wiki, ddg, news].filter (fun r => r.status == "unverified")
        = [wiki, ddg, news] := by
      rw [List.filter_eq_self]
      intro r hr
      simp only [List.mem_cons, List.not_mem_nil, or_false] at hr
      rcases hr with rfl | rfl | rfl
      · simp [hwu]
      · simp [hdu]
      · simp [hnu]
    refine ⟨pyMaxByConf wiki [ddg, news],
      pyMaxByConf_mem [ddg, news] wiki, ?_, ?_, ?_⟩
    · rcases List.mem_cons.mp (pyMaxByConf_mem [ddg, news] wiki)
        with h | h
      · rw [h]; exact hwu
      · simp only [List.mem_cons, List.not_mem_nil, or_false] at h
        rcases h with h | h
        · rw [h]; exact hdu
        · rw [h]; exact hnu
    · intro r hr
      exact pyMaxByConf_ge [ddg, news] wiki r hr
    · rw [aggregate_results, hfv, hfu]

/-- C6 witness: a Wikipedia contradiction is returned unchanged and only
Wikipedia is consulted. -/
theorem verify_claim_realtime_aggregation_witness :
    verify_claim_realtime "Python is a data type of snake" true
      ⟨"false", 1, none, "contradiction", none⟩
      ⟨"unverified", 0, none, "na", none⟩
      ⟨"unverified", 0, none, "na", none⟩ =
      (⟨"false", 1, none, "contradiction", none⟩, ["wikipedia"]) :=
  (verify_claim_realtime_aggregation "Python is a data type of snake"
    ⟨"false", 1, none, "contradiction", none⟩
    ⟨"unverified", 0, none, "na", none⟩
    ⟨"unverified", 0, none, "na", none⟩
    (by decide) (Or.inl rfl) (Or.inr rfl) (Or.inr rfl)).1 rfl

/-- C10.  A cache hit is keyed only by the lowercased, stripped claim text:
any two later calls for the same (non-empty) claim text return the cached
status, confidence, source and details unchanged — whatever their
`query_context` (or even their realtime oracle), and without touching the
cache. -/
theorem verify_claim_cache_hit_context_independent
    (claim claim_type1 claim_type2 : String) (ur1 ur2 : Bool)
    (ctx1 ctx2 : Option String)
    (cache : List (String × VerificationRes))
    (rt1 rt2 : String → Option String → FactResult)
    (e : VerificationRes)
    (hne : claim ≠ "")
    (hhit : cache.lookup (fact_cache_key claim) = some e) :
    verify_claim claim claim_type1 ur1 ctx1 cache rt1 =
      (⟨e.status, e.confidence, e.source, e.details, none⟩, cache) ∧
    verify_claim claim claim_type2 ur2 ctx2 cache rt2 =
      (⟨e.status, e.confidence, e.source, e.details, none⟩, cache) := by
  constructor <;>
    · rw [verify_claim]
      simp only [if_neg hne, hhit]

/-- C10 witness: with a cached entry for "python was created in 1991", two
calls differing in context, realtime oracle, flags and claim casing return
the identical cached result. -/
theorem verify_claim_cache_hit_witness :
    verify_claim "Python was created in 1991  " "factual" true
        (some "programming question")
        [("python was created in 1991",
          ⟨"verified", 1, some "wikipedia", some "ok"⟩)]
        (fun _ _ => ⟨"false", 0, none, none, none⟩) =
      (⟨"verified", 1, some "wikipedia", some "ok", none⟩,
        [("python was created in 1991",
          ⟨"verified", 1, some "wikipedia", some "ok"⟩)]) ∧
    verify_claim "Python was created in 1991  " "numerical" false none
        [("python was created in 1991",
          ⟨"verified", 1, some "wikipedia", some "ok"⟩)]
        (fun _ _ => ⟨"unverified", 0, none, none, none⟩) =
      (⟨"verified", 1, some "wikipedia", some "ok", none⟩,
        [("python was created in 1991",
          ⟨"verified", 1, some "wikipedia", some "ok"⟩)]) :=
  verify_claim_cache_hit_context_independent
    "Python was created in 1991  " "factual" "numerical" true false
    (some "programming question") none
    [("python was created in 1991",
      ⟨"verified", 1, some "wikipedia", some "ok"⟩)]
    (fun _ _ => ⟨"false", 0, none, none, none⟩)
    (fun _ _ => ⟨"unverified", 0, none, none, none⟩)
    ⟨"verified", 1, some "wikipedia", some "ok"⟩
    (by decide) (by rfl)

/-! ## `detection.py` — the orchestrator

`detect_hallucinations` runs claim extraction, per-claim verification,
citation checking, consistency, compliance and policy checks, accumulates
violations, computes the weighted confidence and decides the status.  The
stage results (produced by the services above and by external stores) enter
as `Except`-valued inputs: an `error` value models an exception raised by
that stage.  Claim extraction, verification and citation checking raise to
the orchestrator's outer handler; consistency, compliance and policy checks
are wrapped in their own inner handlers and degrade to defaults. -/

/-- One entry of the claim dicts handed to the orchestrator (the orchestrator
reads only `text` and `claim_type`; the extractor's remaining fields are not
consumed and are elided here). -/
structure ClaimRec where
  text : String
  claim_type : String
  confidence : ℚ
  deriving DecidableEq, Repr

structure VerifEntry where
  claim_text : String
  verification_status : String
  confidence : ℚ
  source : Option String
  details : Option String
  url : Option String
  deriving DecidableEq, Repr

structure CitationRec where
  url : String
  is_valid : Bool
  deriving DecidableEq, Repr

/-- The aggregate dict of `extract_and_validate_citations`. -/
structure CitationResults where
  urls : List CitationRec
  total_citations : Nat
  valid_citations : Nat
  fake_citations : Nat
  deriving DecidableEq, Repr

structure ComplianceViolation where
  severity : Option String
  description : Option String
  rule_name : Option String
  deriving DecidableEq, Repr

structure ComplianceResult where
  passed : Bool
  violations : List ComplianceViolation
  deriving DecidableEq, Repr

/-- One entry of `detect_policy_violations`' result list. -/
structure PolicyViolRec where
  severity : Option String
  description : Option String
  policy_name : Option String
  deriving DecidableEq, Repr

/-- A violation dict accumulated during a run (`type` is `vtype` here;
`rule_name` / `policy_name` model keys present only on compliance / policy
violations). -/
structure Violation where
  vtype : String
  severity : String
  description : String
  rule_name : Option String := none
  policy_name : Option String := none
  deriving DecidableEq, Repr

/-- The component scores of `calculate_detection_confidence`'s breakdown,
plus the clamped total. -/
structure ConfOutput where
  total_score : ℚ
  fact_score : ℚ
  citation_score : ℚ
  consistency_score : ℚ
  compliance_score : ℚ
  clarity_score : ℚ
  deriving DecidableEq, Repr

/-- `severity_penalties.get(v.get('severity', 'medium'), 0.3)`. -/
def sevPenalty (s : String) : ℚ :=
  if s = "low" then 1/10
  else if s = "medium" then 3/10
  else if s = "high" then 3/5
  else if s = "critical" then 1
  else 3/10

/-- `calculate_detection_confidence`: weighted sum of fact (25%), citation
(15%), consistency (10%), compliance (25%) and clarity (20%) components,
clamped to [0,1]. -/
def calculate_detection_confidence (verification_results : List VerifEntry)
    (citation_results : CitationResults) (consistency_score : ℚ)
    (compliance_result : Option ComplianceResult) : ConfOutput :=
  let fact_score : ℚ :=
    if verification_results ≠ [] then
      let verified := verification_results.filter
        (fun r => r.verification_status == "verified")
      let verified_count := verified.length
      let false_count := (verification_results.filter
        (fun r => r.verification_status == "false")).length
      let unverified_count := (verification_results.filter
        (fun r => r.verification_status == "unverified")).length
      let total := verification_results.length
      if total > 0 then
        let raw : ℚ :=
          if verified_count > 0 then
            let verified_confidences := verified.map (fun r => r.confidence)
            let avg_verified_confidence : ℚ :=
              if verified_confidences ≠ [] then
                verified_confidences.sum / verified_confidences.length
              else 7/10
            (verified_count * avg_verified_confidence +
              unverified_count * (6/10) - false_count * 1) / total
          else
            (verified_count * 1 + unverified_count * (6/10) -
              false_count * 1) / total
        max 0 (min 1 raw)
      else 7/10
    else 7/10
  let fact_weighted := fact_score * (25/100)
  let citation_score : ℚ :=
    if citation_results.total_citations > 0 then
      (if citation_results.total_citations > 0 then
        (citation_results.valid_citations : ℚ) /
          citation_results.total_citations
      else 1)
    else 0
  let citation_weighted := citation_score * (15/100)
  let consistency_weighted := consistency_score * (10/100)
  let compliance_score : ℚ :=
    match compliance_result with
    | none => 1
    | some c =>
      if c.passed then 1
      else
        match c.violations.map
            (fun v => sevPenalty (v.severity.getD "medium")) with
        | [] => 1
        | p :: ps => 1 - ps.foldl max p
  let compliance_weighted := compliance_score * (25/100)
  let clarity_score : ℚ := 8/10
  let clarity_weighted := clarity_score * (20/100)
  let total_confidence := fact_weighted + citation_weighted +
    consistency_weighted + compliance_weighted + clarity_weighted
  { total_score := min (max total_confidence 0) 1
    fact_score := fact_score
    citation_score := citation_score
    consistency_score := consistency_score
    compliance_score := compliance_score
    clarity_score := clarity_score }

/-- The "real" violation types of the status ladder. -/
def realViolationTypes : List String :=
  ["compliance", "policy", "citation", "hallucination"]

/-- The status-decision ladder of `detect_hallucinations` (step 8). -/
def determine_status (violations : List Violation) (confidence_score : ℚ)
    (ai_response : String) : String :=
  let critical_violations := violations.filter
    (fun v => v.severity == "critical")
  let high_severity_violations := violations.filter
    (fun v => v.severity == "high")
  let real_violations := violations.filter
    (fun v => decide (v.vtype ∈ realViolationTypes))
  let consistency_violations := violations.filter
    (fun v => v.vtype == "consistency")
  if critical_violations ≠ [] then "blocked"
  else if high_severity_violations ≠ [] ∧ real_violations ≠ [] then "blocked"
  else if real_violations ≠ [] then "flagged"
  else if violations.length = consistency_violations.length ∧
      consistency_violations.length > 0 then
    -- has_only_consistency_issues
    if confidence_score < 3/10 ∧ consistency_violations.length > 1 then
      "flagged"
    else "approved"
  else if (pySplitWs ai_response).length < 3 then
    if real_violations ≠ [] then "blocked"
    else if confidence_score < 3/10 then "flagged"
    else "approved"
  else if confidence_score < 3/10 ∧ real_violations ≠ [] then "blocked"
  else if confidence_score < 4/10 then "flagged"
  else if confidence_score < 5/10 then "flagged"
  else "approved"

/-- Numeric rendering of a score interpolated into a message (abstracts
Python's float formatting). -/
def ratRepr (q : ℚ) : String :=
  toString q.num ++ "/" ++ toString q.den

/-- `generate_explanation`, over the fields it reads. -/
def generate_explanation (status : String) (confidence_score : ℚ)
    (violations : List Violation) (verification_results : List VerifEntry)
    (citations : List CitationRec) : String :=
  let parts := ["Confidence Score: " ++ ratRepr confidence_score]
  let parts := parts ++
    [if status = "approved" then "Response approved - no issues detected."
     else if status = "flagged" then
       "Response flagged for review - some concerns detected."
     else "Response blocked - significant issues detected."]
  let parts := parts ++
    (if violations ≠ [] then
      ("Found " ++ toString violations.length ++ " violation(s):") ::
        violations.map (fun v => "- " ++ v.vtype ++ ": " ++ v.description)
    else [])
  let parts := parts ++
    (if verification_results ≠ [] then
      ["Verified " ++ toString ((verification_results.filter
          (fun r => r.verification_status == "verified")).length) ++ "/" ++
        toString verification_results.length ++ " claims."]
    else [])
  let parts := parts ++
    (if citations ≠ [] then
      ["Validated " ++ toString ((citations.filter
          (fun c => c.is_valid)).length) ++ "/" ++
        toString citations.length ++ " citations."]
    else [])
  String.intercalate " " parts

structure DetectionOutput where
  status : String
  confidence_score : ℚ
  confidence_breakdown : Option ConfOutput
  violations : List Violation
  verification_results : List VerifEntry
  citations : List CitationRec
  claims : List ClaimRec
  explanation : String
  deriving DecidableEq, Repr

/-- The dict returned by the orchestrator's outer `except` handler. -/
def error_output (e : String) : DetectionOutput :=
  { status := "flagged"
    confidence_score := 1/2
    confidence_breakdown := none
    violations := [⟨"error", "medium", "Detection error: " ++ e, none,
      none⟩]
    verification_results := []
    citations := []
    claims := []
    explanation := "Error during detection: " ++ e }

/-- Step 2's verification-result entries, one per (claim, verification)
pair. -/
def verification_entries (pairs : List (ClaimRec × FactResult)) :
    List VerifEntry :=
  pairs.map (fun p =>
    { claim_text := p.1.text
      verification_status := p.2.status
      confidence := p.2.confidence
      source := p.2.source
      details := p.2.details
      url := p.2.url })

/-- Step 2's hallucination violations: one per claim verified `false`. -/
def hallucination_violations (pairs : List (ClaimRec × FactResult)) :
    List Violation :=
  pairs.filterMap (fun p =>
    if p.2.status = "false" then
      some ⟨"hallucination", "high",
        "Claim verified as incorrect: " ++ p.1.text ++ ". " ++
          p.2.details.getD "Context mismatch or factually incorrect.",
        none, none⟩
    else none)

/-- Step 3's citation violation, present when fake citations were found. -/
def citation_violations (citation_results : CitationResults) :
    List Violation :=
  if citation_results.fake_citations > 0 then
    [⟨"citation", "high",
      "Found " ++ toString citation_results.fake_citations ++
        " invalid/fake citations", none, none⟩]
  else []

/-- Step 4: the consistency score actually used, and its violation.  The
check runs only for responses of ≥ 3 words; an exception (or a short
response) leaves the 0.7 default and no violation. -/
def consistency_eval (word_count : Nat)
    (consistencyE : Except String ℚ) : ℚ × List Violation :=
  if word_count ≥ 3 then
    match consistencyE with
    | .ok cscore =>
      (cscore,
        if cscore < 1/10 then
          [⟨"consistency", "low",
            "Response differs significantly from historical responses (score: "
              ++ ratRepr cscore ++ ")", none, none⟩]
        else [])
    | .error _ => (7/10, [])
  else (7/10, [])

/-- Step 5's compliance violations (severity defaults to `medium`). -/
def compliance_violations (compliance_result : ComplianceResult) :
    List Violation :=
  if ¬ compliance_result.passed then
    compliance_result.violations.map (fun v =>
      ⟨"compliance", v.severity.getD "medium", v.description.getD "",
        some (v.rule_name.getD ""), none⟩)
  else []

/-- Step 6's policy violations (severity defaults to `high`); an exception
in the policy check degrades to no violations. -/
def policy_violations_of (policiesE : Except String (List PolicyViolRec)) :
    List Violation :=
  match policiesE with
  | .ok vs => vs.map (fun v =>
      ⟨"policy", v.severity.getD "high", v.description.getD "", none,
        some (v.policy_name.getD "")⟩)
  | .error _ => []

/-- The stage results entering one detection run.  `error e` models the
stage raising an exception with message `e`. -/
structure StageInputs where
  claims : Except String (List ClaimRec)
  verifications : Except String (List FactResult)
  citations : Except String CitationResults
  consistency : Except String ℚ
  compliance : Except String ComplianceResult
  policies : Except String (List PolicyViolRec)
  deriving Repr

/-- The success path of `detect_hallucinations` (steps 2-9). -/
def detect_success (ai_response : String)
    (claims : List ClaimRec) (verifications : List FactResult)
    (citation_results : CitationResults)
    (consistencyE : Except String ℚ)
    (complianceE : Except String ComplianceResult)
    (policiesE : Except String (List PolicyViolRec)) : DetectionOutput :=
  let pairs := claims.zip verifications
  let verification_results := verification_entries pairs
  let word_count := (pySplitWs ai_response).length
  let consistencyPair := consistency_eval word_count consistencyE
  let consistency_score := consistencyPair.1
  let compliance_result : ComplianceResult :=
    match complianceE with
    | .ok c => c
    | .error _ => ⟨true, []⟩
  let violations :=
    hallucination_violations pairs ++ citation_violations citation_results ++
    consistencyPair.2 ++ compliance_violations compliance_result ++
    policy_violations_of policiesE
  let confidence_data := calculate_detection_confidence verification_results
    citation_results consistency_score (some compliance_result)
  let confidence_score := confidence_data.total_score
  let status := determine_status violations confidence_score ai_response
  { status := status
    confidence_score := confidence_score
    confidence_breakdown := some confidence_data
    violations := violations
    verification_results := verification_results
    citations := citation_results.urls
    claims := claims
    explanation := generate_explanation status confidence_score violations
      verification_results citation_results.urls }

/-- `detect_hallucinations`: claim extraction, verification and citation
checking raise to the outer handler (which returns `error_output`); the
remaining stages enter the success path with their own inner handling. -/
def detect_run (query ai_response organization_id : String)
    (st : StageInputs) : DetectionOutput :=
  let _ := query
  let _ := organization_id
  match st.claims with
  | .error e => error_output e
  | .ok claims =>
    match st.verifications with
    | .error e => error_output e
    | .ok verifications =>
      match st.citations with
      | .error e => error_output e
      | .ok citation_results =>
        detect_success ai_response claims verifications citation_results
          st.consistency st.compliance st.policies

/-! ## Claims C8, C3, C7, C1, C2 -/

theorem clamp01_bounds (x : ℚ) :
    0 ≤ min (max x 0) 1 ∧ min (max x 0) 1 ≤ 1 :=
  ⟨le_min (le_max_right x 0) zero_le_one, min_le_right _ _⟩

/-- C8.  The total confidence is clamped to [0,1] for every input, including
component scores outside [0,1]. -/
theorem calculate_detection_confidence_in_unit_interval
    (verification_results : List VerifEntry)
    (citation_results : CitationResults) (consistency_score : ℚ)
    (compliance_result : Option ComplianceResult) :
    0 ≤ (calculate_detection_confidence verification_results citation_results
      consistency_score compliance_result).total_score ∧
    (calculate_detection_confidence verification_results citation_results
      consistency_score compliance_result).total_score ≤ 1 :=
  clamp01_bounds _

/-- C3 counterexample.  With zero citations present, the citation component
score is 0, not the claimed 1.0 (the `else 1.0` arm of the inner conditional
is unreachable: it is guarded by the same `total_citations > 0` test). -/
theorem citation_score_zero_citations_counterexample :
    (calculate_detection_confidence [] ⟨[], 0, 0, 0⟩ (7/10)
      none).citation_score = 0 ∧
    (calculate_detection_confidence [] ⟨[], 0, 0, 0⟩ (7/10)
      none).citation_score ≠ 1 := by
  have h : (calculate_detection_confidence [] ⟨[], 0, 0, 0⟩ (7/10)
      none).citation_score = 0 := rfl
  refine ⟨h, ?_⟩
  rw [h]
  norm_num

/-- C3 amended.  The citation component equals valid/total when citations
are present and 0.0 when zero citations are present (absence of citations
zeroes the component rather than leaving it unpenalized). -/
theorem citation_score_formula (verification_results : List VerifEntry)
    (citation_results : CitationResults) (consistency_score : ℚ)
    (compliance_result : Option ComplianceResult) :
    (calculate_detection_confidence verification_results citation_results
      consistency_score compliance_result).citation_score =
    if citation_results.total_citations > 0 then
      (citation_results.valid_citations : ℚ) / citation_results.total_citations
    else 0 := by
  show (if citation_results.total_citations > 0 then
      (if citation_results.total_citations > 0 then
        (citation_results.valid_citations : ℚ) /
          citation_results.total_citations
      else 1) else 0) = _
  split_ifs with h
  · rfl
  · rfl

/-- C7 amended.  Only exceptions escaping claim extraction, per-claim
verification or citation checking reach the orchestrator's outer handler;
for those, the run does not raise: it returns status `flagged`, confidence
0.5, exactly one synthetic `error` violation describing the failure, and
empty claim, citation and verification-result lists.  Exceptions from the
consistency, compliance and policy stages are caught by their inner
handlers and the run proceeds with defaults instead. -/
theorem detection_error_path (query ai_response organization_id : String)
    (st : StageInputs)
    (h : (∃ e, st.claims = .error e) ∨ (∃ e, st.verifications = .error e) ∨
      (∃ e, st.citations = .error e)) :
    ∃ e, detect_run query ai_response organization_id st =
      { status := "flagged"
        confidence_score := 1/2
        confidence_breakdown := none
        violations := [⟨"error", "medium", "Detection error: " ++ e, none,
          none⟩]
        verification_results := []
        citations := []
        claims := []
        explanation := "Error during detection: " ++ e } := by
  rcases hcl : st.claims with e1 | claims
  · exact ⟨e1, by simp only [detect_run, hcl]; rfl⟩
  · rcases hver : st.verifications with e2 | verifs
    · exact ⟨e2, by simp only [detect_run, hcl, hver]; rfl⟩
    · rcases hcit : st.citations with e3 | cr
      · exact ⟨e3, by simp only [detect_run, hcl, hver, hcit]; rfl⟩
      · exfalso
        rcases h with ⟨e, he⟩ | ⟨e, he⟩ | ⟨e, he⟩
        · rw [hcl] at he; exact Except.noConfusion he
        · rw [hver] at he; exact Except.noConfusion he
        · rw [hcit] at he; exact Except.noConfusion he

/-- C7 witness: a failing claim-extraction stage produces the synthetic
error result. -/
theorem detection_error_path_witness :
    ∃ e, detect_run "q" "some response" "org"
      ⟨.error "boom", .ok [], .ok ⟨[], 0, 0, 0⟩, .ok 1, .ok ⟨true, []⟩,
        .ok []⟩ =
      { status := "flagged"
        confidence_score := 1/2
        confidence_breakdown := none
        violations := [⟨"error", "medium", "Detection error: " ++ e, none,
          none⟩]
        verification_results := []
        citations := []
        claims := []
        explanation := "Error during detection: " ++ e } :=
  detection_error_path "q" "some response" "org"
    ⟨.error "boom", .ok [], .ok ⟨[], 0, 0, 0⟩, .ok 1, .ok ⟨true, []⟩, .ok []⟩
    (Or.inl ⟨"boom", rfl⟩)

theorem determine_status_blocked_of_critical
    {violations : List Violation} {conf : ℚ} {resp : String} {v : Violation}
    (hv : v ∈ violations) (hc : v.severity = "critical") :
    determine_status violations conf resp = "blocked" := by
  have hcrit : violations.filter (fun v => v.severity == "critical") ≠ [] :=
    List.ne_nil_of_mem (List.mem_filter.mpr ⟨hv, by simp [hc]⟩)
  simp only [determine_status]
  rw [if_pos hcrit]

theorem determine_status_of_real
    {violations : List Violation} {conf : ℚ} {resp : String} {v : Violation}
    (hv : v ∈ violations) (ht : v.vtype ∈ realViolationTypes) :
    determine_status violations conf resp = "flagged" ∨
    determine_status violations conf resp = "blocked" := by
  have hreal : violations.filter
      (fun v => decide (v.vtype ∈ realViolationTypes)) ≠ [] :=
    List.ne_nil_of_mem (List.mem_filter.mpr ⟨hv, by simp [ht]⟩)
  simp only [determine_status]
  by_cases h1 : violations.filter (fun v => v.severity == "critical") ≠ []
  · rw [if_pos h1]; exact Or.inr rfl
  · rw [if_neg h1]
    by_cases h2 : violations.filter (fun v => v.severity == "high") ≠ [] ∧
      violations.filter (fun v => decide (v.vtype ∈ realViolationTypes)) ≠ []
    · rw [if_pos h2]; exact Or.inr rfl
    · rw [if_neg h2, if_pos hreal]; exact Or.inl rfl

/-- C1.  In every detection run, a `critical` violation in the accumulated
list forces status `blocked`; a violation of a "real" type (compliance,
policy, citation, hallucination) forces `flagged` or `blocked` — never
`approved` — regardless of the confidence score. -/
theorem detection_status_conservative
    (query ai_response organization_id : String) (st : StageInputs) :
    ((∃ v ∈ (detect_run query ai_response organization_id st).violations,
        v.severity = "critical") →
      (detect_run query ai_response organization_id st).status = "blocked") ∧
    ((∃ v ∈ (detect_run query ai_response organization_id st).violations,
        v.vtype ∈ realViolationTypes) →
      (detect_run query ai_response organization_id st).status = "flagged" ∨
      (detect_run query ai_response organization_id st).status = "blocked")
    := by
  have herr : ∀ e : String,
      ((∃ v ∈ (error_output e).violations, v.severity = "critical") →
        (error_output e).status = "blocked") ∧
      ((∃ v ∈ (error_output e).violations, v.vtype ∈ realViolationTypes) →
        (error_output e).status = "flagged" ∨
        (error_output e).status = "blocked") := by
    intro e
    refine ⟨fun ⟨v, hv, hc⟩ => ?_, fun _ => Or.inl rfl⟩
    simp only [error_output, List.mem_singleton] at hv
    subst hv
    simp at hc
  rcases hcl : st.claims with e1 | claims
  · simpa only [detect_run, hcl] using herr e1
  · rcases hver : st.verifications with e2 | verifs
    · simpa only [detect_run, hcl, hver] using herr e2
    · rcases hcit : st.citations with e3 | cr
      · simpa only [detect_run, hcl, hver, hcit] using herr e3
      · simp only [detect_run, hcl, hver, hcit]
        have hs : (detect_success ai_response claims verifs cr st.consistency
            st.compliance st.policies).status =
          determine_status
            (detect_success ai_response claims verifs cr st.consistency
              st.compliance st.policies).violations
            (detect_success ai_response claims verifs cr st.consistency
              st.compliance st.policies).confidence_score ai_response := rfl
        constructor
        · rintro ⟨v, hv, hc⟩
          rw [hs]
          exact determine_status_blocked_of_critical hv hc
        · rintro ⟨v, hv, ht⟩
          rw [hs]
          exact determine_status_of_real hv ht

/-- C1 witness: a run whose compliance stage reports a critical violation is
blocked. -/
theorem detection_status_conservative_witness :
    (detect_run "q" "some longer response here" "org"
      ⟨.ok [], .ok [], .ok ⟨[], 0, 0, 0⟩, .error "skip",
        .ok ⟨false, [⟨some "critical", some "No disclaimers", some "SEC"⟩]⟩,
        .ok []⟩).status = "blocked" :=
  (detection_status_conservative "q" "some longer response here" "org"
    ⟨.ok [], .ok [], .ok ⟨[], 0, 0, 0⟩, .error "skip",
      .ok ⟨false, [⟨some "critical", some "No disclaimers", some "SEC"⟩]⟩,
      .ok []⟩).1
    ⟨⟨"compliance", "critical", "No disclaimers", some "SEC", none⟩,
      by decide, rfl⟩

/-- C2.  Whenever a per-claim verification result in a run has status
`false`, the run's violation list contains a violation of type
`hallucination` with severity `high`. -/
theorem detection_false_verification_yields_hallucination
    (query ai_response organization_id : String) (st : StageInputs)
    (entry : VerifEntry)
    (hmem : entry ∈ (detect_run query ai_response organization_id
      st).verification_results)
    (hfalse : entry.verification_status = "false") :
    ∃ v ∈ (detect_run query ai_response organization_id st).violations,
      v.vtype = "hallucination" ∧ v.severity = "high" := by
  rcases hcl : st.claims with e1 | claims
  · simp only [detect_run, hcl, error_output, List.not_mem_nil] at hmem
  · rcases hver : st.verifications with e2 | verifs
    · simp only [detect_run, hcl, hver, error_output, List.not_mem_nil]
        at hmem
    · rcases hcit : st.citations with e3 | cr
      · simp only [detect_run, hcl, hver, hcit, error_output,
          List.not_mem_nil] at hmem
      · simp only [detect_run, hcl, hver, hcit] at hmem ⊢
        have hm2 : entry ∈ verification_entries (claims.zip verifs) := hmem
        rw [verification_entries] at hm2
        obtain ⟨p, hp, hpe⟩ := List.mem_map.mp hm2
        have hps : p.2.status = "false" := by
          rw [← hpe] at hfalse
          exact hfalse
        have hhall : (⟨"hallucination", "high",
            "Claim verified as incorrect: " ++ p.1.text ++ ". " ++
              p.2.details.getD "Context mismatch or factually incorrect.",
            none, none⟩ : Violation) ∈
            hallucination_violations (claims.zip verifs) := by
          rw [hallucination_violations]
          exact List.mem_filterMap.mpr ⟨p, hp, by rw [if_pos hps]⟩
        refine ⟨⟨"hallucination", "high",
          "Claim verified as incorrect: " ++ p.1.text ++ ". " ++
            p.2.details.getD "Context mismatch or factually incorrect.",
          none, none⟩, ?_, rfl, rfl⟩
        show _ ∈ (detect_success ai_response claims verifs cr st.consistency
          st.compliance st.policies).violations
        exact List.mem_append_left _ (List.mem_append_left _
          (List.mem_append_left _ (List.mem_append_left _ hhall)))

/-- C2 witness: one claim verified `false` yields a high-severity
hallucination violation. -/
theorem detection_false_verification_witness :
    ∃ v ∈ (detect_run "q" "The moon is made of cheese today" "org"
      ⟨.ok [⟨"The moon is made of cheese", "factual", 1⟩],
        .ok [⟨"false", 1, some "wikipedia", some "Contradiction found",
          none⟩],
        .ok ⟨[], 0, 0, 0⟩, .error "skip", .ok ⟨true, []⟩,
        .ok []⟩).violations,
      v.vtype = "hallucination" ∧ v.severity = "high" :=
  detection_false_verification_yields_hallucination
    "q" "The moon is made of cheese today" "org"
    ⟨.ok [⟨"The moon is made of cheese", "factual", 1⟩],
      .ok [⟨"false", 1, some "wikipedia", some "Contradiction found", none⟩],
      .ok ⟨[], 0, 0, 0⟩, .error "skip", .ok ⟨true, []⟩, .ok []⟩
    ⟨"The moon is made of cheese", "false", 1, some "wikipedia",
      some "Contradiction found", none⟩
    (by decide) rfl

/-! ## Claim C5 -/

theorem determine_status_empty (conf : ℚ) (resp : String)
    (h : 1/2 ≤ conf) : determine_status [] conf resp = "approved" := by
  have h3 : ¬ (conf < 3/10) := by intro hc; linarith
  have h4 : ¬ (conf < 4/10) := by intro hc; linarith
  have h5 : ¬ (conf < 5/10) := by intro hc; linarith
  simp only [determine_status, List.filter_nil, List.length_nil]
  rw [if_neg (by simp), if_neg (by simp), if_neg (by simp),
    if_neg (by simp)]
  by_cases hw : (pySplitWs resp).length < 3
  · rw [if_pos hw, if_neg (by simp), if_neg h3]
  · rw [if_neg hw, if_neg (fun hc => hc.2 rfl), if_neg h4, if_neg h5]

theorem consistency_eval_bounds (word_count : Nat)
    (ce : Except String ℚ) (hc : ∀ c, ce = .ok c → 0 ≤ c ∧ c ≤ 1) :
    0 ≤ (consistency_eval word_count ce).1 ∧
    (consistency_eval word_count ce).1 ≤ 1 := by
  rw [consistency_eval.eq_def]
  split
  · cases hce : ce with
    | ok c =>
      have := hc c hce
      simpa using this
    | error e => norm_num
  · norm_num

/-- The clamped total, written through the component fields (definitional:
the weighted terms are built from the very scores the breakdown reports). -/
theorem calc_total_eq (verification_results : List VerifEntry)
    (cr : CitationResults) (c : ℚ) (comp : Option ComplianceResult) :
    (calculate_detection_confidence verification_results cr c
      comp).total_score =
    min (max
      ((calculate_detection_confidence verification_results cr c
          comp).fact_score * (25/100) +
        (calculate_detection_confidence verification_results cr c
          comp).citation_score * (15/100) +
        c * (10/100) +
        (calculate_detection_confidence verification_results cr c
          comp).compliance_score * (25/100) +
        (8/10) * (20/100)) 0) 1 := rfl

/-- The compliance component, unfolded (definitional). -/
theorem calc_compliance_score_eq (verification_results : List VerifEntry)
    (cr : CitationResults) (c : ℚ) (comp : ComplianceResult) :
    (calculate_detection_confidence verification_results cr c
      (some comp)).compliance_score =
    if comp.passed then (1 : ℚ)
    else
      match comp.violations.map
          (fun v => sevPenalty (v.severity.getD "medium")) with
      | [] => (1 : ℚ)
      | p :: ps => 1 - ps.foldl max p := rfl

theorem calc_total_empty (cr : CitationResults) (c : ℚ)
    (comp : ComplianceResult) (h0 : cr.total_citations = 0)
    (hcomp : compliance_violations comp = []) (hc : 0 ≤ c) :
    1/2 ≤ (calculate_detection_confidence [] cr c
      (some comp)).total_score := by
  have hfact : (calculate_detection_confidence [] cr c
      (some comp)).fact_score = 7/10 := rfl
  have hcitS : (calculate_detection_confidence [] cr c
      (some comp)).citation_score = 0 := by
    show (if cr.total_citations > 0 then
        (if cr.total_citations > 0 then
          (cr.valid_citations : ℚ) / (cr.total_citations : ℚ)
        else 1) else 0) = 0
    rw [h0]
    norm_num
  have hcompS : (calculate_detection_confidence [] cr c
      (some comp)).compliance_score = 1 := by
    rw [calc_compliance_score_eq]
    by_cases hp : comp.passed
    · rw [if_pos hp]
    · rw [if_neg hp]
      rw [compliance_violations, if_pos hp] at hcomp
      rw [List.map_eq_nil_iff.mp hcomp]
      rfl
  rw [calc_total_eq, hfact, hcitS, hcompS]
  refine le_min (le_trans ?_ (le_max_left _ _)) (by norm_num)
  linarith

/-- C5.  A run with zero extracted claims, zero citations and zero
violations is approved with confidence at least 0.5 (the fact, compliance
and clarity defaults alone clear the flag threshold). -/
theorem detection_empty_run_approved
    (query ai_response organization_id : String) (st : StageInputs)
    (cr : CitationResults)
    (hclaims : st.claims = .ok [])
    (hcit : st.citations = .ok cr)
    (h0 : cr.total_citations = 0)
    (hcons : ∀ c, st.consistency = .ok c → 0 ≤ c ∧ c ≤ 1)
    (hnov : (detect_run query ai_response organization_id st).violations
      = []) :
    (detect_run query ai_response organization_id st).status = "approved" ∧
    1/2 ≤ (detect_run query ai_response organization_id
      st).confidence_score := by
  rcases hver : st.verifications with e2 | verifs
  · simp only [detect_run, hclaims, hver, error_output] at hnov
    exact absurd hnov (by simp)
  · simp only [detect_run, hclaims, hver, hcit] at hnov ⊢
    have hviol : (detect_success ai_response [] verifs cr st.consistency
        st.compliance st.policies).violations =
      hallucination_violations (([] : List ClaimRec).zip verifs) ++
      citation_violations cr ++
      (consistency_eval (pySplitWs ai_response).length st.consistency).2 ++
      compliance_violations
        (match st.compliance with
          | .ok c => c
          | .error _ => ⟨true, []⟩) ++
      policy_violations_of st.policies := rfl
    rw [hviol] at hnov
    simp only [List.append_eq_nil] at hnov
    have hcompnil : compliance_violations
        (match st.compliance with
          | .ok c => c
          | .error _ => (⟨true, []⟩ : ComplianceResult)) = [] :=
      hnov.1.2
    have hcsb := consistency_eval_bounds (pySplitWs ai_response).length
      st.consistency hcons
    have hconf : 1/2 ≤ (detect_success ai_response [] verifs cr
        st.consistency st.compliance st.policies).confidence_score := by
      have hce : (detect_success ai_response [] verifs cr st.consistency
          st.compliance st.policies).confidence_score =
        (calculate_detection_confidence [] cr
          (consistency_eval (pySplitWs ai_response).length
            st.consistency).1
          (some (match st.compliance with
            | .ok c => c
            | .error _ => ⟨true, []⟩))).total_score := rfl
      rw [hce]
      exact calc_total_empty cr _ _ h0 hcompnil hcsb.1
    refine ⟨?_, hconf⟩
    have hs : (detect_success ai_response [] verifs cr st.consistency
        st.compliance st.policies).status =
      determine_status
        (detect_success ai_response [] verifs cr st.consistency
          st.compliance st.policies).violations
        (detect_success ai_response [] verifs cr st.consistency
          st.compliance st.policies).confidence_score ai_response := rfl
    rw [hs, show (detect_success ai_response [] verifs cr st.consistency
        st.compliance st.policies).violations = [] from hviol.trans (by
          rw [hnov.1.1.1.1, hnov.1.1.1.2, hnov.1.1.2, hnov.1.2, hnov.2]
          rfl)]
    exact determine_status_empty _ _ hconf

/-- C5 witness: an empty run (no claims, no citations, all checks clean) is
approved with confidence ≥ 0.5. -/
theorem detection_empty_run_approved_witness :
    (detect_run "q" "Sure thing" "org"
      ⟨.ok [], .ok [], .ok ⟨[], 0, 0, 0⟩, .ok 1, .ok ⟨true, []⟩,
        .ok []⟩).status = "approved" ∧
    1/2 ≤ (detect_run "q" "Sure thing" "org"
      ⟨.ok [], .ok [], .ok ⟨[], 0, 0, 0⟩, .ok 1, .ok ⟨true, []⟩,
        .ok []⟩).confidence_score :=
  detection_empty_run_approved "q" "Sure thing" "org"
    ⟨.ok [], .ok [], .ok ⟨[], 0, 0, 0⟩, .ok 1, .ok ⟨true, []⟩, .ok []⟩
    ⟨[], 0, 0, 0⟩ rfl rfl rfl
    (fun c hc => by
      injection hc with h
      subst h
      norm_num)
    (by rfl)

/-- C7 counterexample.  The claim asserts the synthetic error result for an
exception escaping ANY pipeline stage, but exceptions raised by the
consistency, compliance and policy stages are swallowed by their inner
handlers (`detection.py` lines 112-113, 129-130, 143-144).  Concretely:
with a policy check that raises, the run still returns an empty violation
list and status `approved` — not status `flagged` with an `error`
violation. -/
theorem detection_policy_exception_not_error_result :
    (detect_run "q" "Sure thing" "org"
      ⟨.ok [], .ok [], .ok ⟨[], 0, 0, 0⟩, .error "skip", .ok ⟨true, []⟩,
        .error "policy check failed"⟩).violations = [] ∧
    (detect_run "q" "Sure thing" "org"
      ⟨.ok [], .ok [], .ok ⟨[], 0, 0, 0⟩, .error "skip", .ok ⟨true, []⟩,
        .error "policy check failed"⟩).status = "approved" := by
  have hviol : (detect_run "q" "Sure thing" "org"
      ⟨.ok [], .ok [], .ok ⟨[], 0, 0, 0⟩, .error "skip", .ok ⟨true, []⟩,
        .error "policy check failed"⟩).violations = [] := rfl
  refine ⟨hviol, ?_⟩
  have hconf : 1/2 ≤ (detect_run "q" "Sure thing" "org"
      ⟨.ok [], .ok [], .ok ⟨[], 0, 0, 0⟩, .error "skip", .ok ⟨true, []⟩,
        .error "policy check failed"⟩).confidence_score := by
    have hce : (detect_run "q" "Sure thing" "org"
        ⟨.ok [], .ok [], .ok ⟨[], 0, 0, 0⟩, .error "skip", .ok ⟨true, []⟩,
          .error "policy check failed"⟩).confidence_score =
        (calculate_detection_confidence [] ⟨[], 0, 0, 0⟩ (7/10)
          (some ⟨true, []⟩)).total_score := rfl
    rw [hce]
    exact calc_total_empty ⟨[], 0, 0, 0⟩ (7/10) ⟨true, []⟩ rfl rfl
      (by norm_num)
  have hs : (detect_run "q" "Sure thing" "org"
      ⟨.ok [], .ok [], .ok ⟨[], 0, 0, 0⟩, .error "skip", .ok ⟨true, []⟩,
        .error "policy check failed"⟩).status =
      determine_status
        (detect_run "q" "Sure thing" "org"
          ⟨.ok [], .ok [], .ok ⟨[], 0, 0, 0⟩, .error "skip", .ok ⟨true, []⟩,
            .error "policy check failed"⟩).violations
        (detect_run "q" "Sure thing" "org"
          ⟨.ok [], .ok [], .ok ⟨[], 0, 0, 0⟩, .error "skip", .ok ⟨true, []⟩,
            .error "policy check failed"⟩).confidence_score
        "Sure thing" := rfl
  rw [hs, hviol]
  exact determine_status_empty _ _ hconf

end TruthGuard
